import Mathlib

/-!
A shallow embedding of `src/vs/workbench/contrib/markers/browser/markersTable.ts`:
the `MarkerTableItem` row type and the `MarkersTable` controller with its
`reset`, `filterMarkers`, `update`, `getFocus` and `getVisibleItemCount`
operations.  External collaborators that live outside this file (the marker
data model, the severity enumeration, the filter utilities, the label service
and the resource-glob matchers) are modelled from the spec, either as abstract
function parameters or as definitions marked `Modelled from the spec:`.
-/

/-- A resource locator; only the scheme and an opaque path component are
relevant to the table logic. -/
structure URI where
  scheme : String
  path : String
deriving DecidableEq, Repr

/-- Modelled from the spec: the two walkthrough pseudo-resource scheme
constants of the external `network.Schemas` module (walkthrough content). -/
def Schemas.walkThrough : String := "walkThrough"

/-- Modelled from the spec: the second walkthrough pseudo-resource scheme of
the external `network.Schemas` module. -/
def Schemas.walkThroughSnippet : String := "walkThroughSnippet"

/-- Modelled from the spec: the severity enumeration of the external marker
model (Error/Warning/Info, plus the Hint member of the upstream enum). -/
inductive MarkerSeverity where
  | Error
  | Warning
  | Info
  | Hint
deriving DecidableEq, Repr

/-- Modelled from the spec: the numeric sort rank of a severity.  The spec
orders Error before Warning before Info; Hint (never enabled by a severity
toggle) sorts last. -/
def MarkerSeverity.rank : MarkerSeverity → Nat
  | .Error => 0
  | .Warning => 1
  | .Info => 2
  | .Hint => 3

/-- Modelled from the spec: `MarkerSeverity.compare`, the comparator the table
passes to its sort; negative when `a` sorts before `b`, so ascending by
severity rank (Error first). -/
def MarkerSeverity.compare (a b : MarkerSeverity) : Int :=
  (a.rank : Int) - (b.rank : Int)

/-- A match span inside a field, as produced by the external filter utility
(`IMatch` of `vs/base/common/filters`). -/
structure IMatch where
  start : Nat
  stop : Nat
deriving DecidableEq, Repr

/-- A marker code: either a plain string or a link carrying a display value
and a target (modelled from the spec's "plain string or a link with
target+value"). -/
inductive MarkerCode where
  | str (value : String)
  | link (value : String) (target : String)
deriving DecidableEq, Repr

/-- Modelled from the spec: one related-information entry of a marker (opaque
to the table logic). -/
structure IRelatedInformation where
  resource : URI
  message : String
  startLineNumber : Nat
  startColumn : Nat
deriving DecidableEq, Repr

/-- Modelled from the spec: the raw marker record (`IMarker`) of the external
marker model. -/
structure IMarker where
  owner : String
  resource : URI
  severity : MarkerSeverity
  message : String
  source : Option String
  code : Option MarkerCode
  startLineNumber : Nat
  startColumn : Nat
deriving DecidableEq, Repr

/-- Modelled from the spec: the `Marker` wrapper of the external markers model
(an id, the raw marker record and optional related information). -/
structure Marker where
  id : String
  marker : IMarker
  relatedInformation : Option (List IRelatedInformation)
deriving DecidableEq, Repr

/-- The `resource` accessor of `Marker`, forwarding to the raw record's
resource. -/
def Marker.resource (m : Marker) : URI :=
  m.marker.resource

/-- `MarkerTableItem`: a marker (whose fields are inherited unchanged) plus
five optional match-span lists used for highlight rendering. -/
structure MarkerTableItem where
  marker : Marker
  sourceMatches : Option (List IMatch)
  codeMatches : Option (List IMatch)
  messageMatches : Option (List IMatch)
  fileMatches : Option (List IMatch)
  ownerMatches : Option (List IMatch)
deriving DecidableEq, Repr

/-- Modelled from the spec: the free-text part of the filter specification
(string plus negate flag); an absent text is the empty string, which is falsy
in the source. -/
structure TextFilter where
  text : String
  negate : Bool
deriving DecidableEq, Repr

/-- Modelled from the spec: `FilterOptions` — severity toggles, the
include/exclude resource-glob matchers (abstracted to predicates on
resources), and the free-text filter. -/
structure FilterOptions where
  showErrors : Bool
  showWarnings : Bool
  showInfos : Bool
  excludesMatcher : URI → Bool
  includesMatcher : URI → Bool
  textFilter : TextFilter

/-- Modelled from the spec: the external collaborators the table consults per
marker — `FilterOptions._filter` and `FilterOptions._messageFilter` (a text
match utility returning a span list or a no-match signal) and the label
service's `getUriLabel` (relative path formatting). -/
structure ExtServices where
  filterText : String → String → Option (List IMatch)
  messageFilter : String → String → Option (List IMatch)
  getUriLabel : URI → String

/-- Modelled from the spec: a resource-marker group (`ResourceMarkers`); the
`gid` field stands for the JavaScript object identity that `indexOf` compares
by in `update`. -/
structure ResourceMarkers where
  gid : Nat
  resource : URI
  markers : List Marker
deriving DecidableEq, Repr

/-- The severity filter of `reset`: the marker's severity toggle is enabled
(`matchesSeverity` in the source loop). -/
def matchesSeverity (fo : FilterOptions) (m : Marker) : Bool :=
  (fo.showErrors && (m.marker.severity == MarkerSeverity.Error)) ||
  (fo.showWarnings && (m.marker.severity == MarkerSeverity.Warning)) ||
  (fo.showInfos && (m.marker.severity == MarkerSeverity.Info))

/-- The five per-field match-span results computed by the text-filter branch
of `reset`. -/
structure TextMatches where
  sourceMatches : Option (List IMatch)
  codeMatches : Option (List IMatch)
  messageMatches : Option (List IMatch)
  fileMatches : Option (List IMatch)
  ownerMatches : Option (List IMatch)
deriving DecidableEq, Repr

/-- The text-filter branch of `reset`: the five span computations.  A falsy
source (absent or empty string) and a falsy code (absent or empty plain
string) contribute `none`; a link code is filtered on its display value; the
file field is the formatted relative label of the resource. -/
def computeMatches (ext : ExtServices) (text : String) (m : Marker) : TextMatches where
  sourceMatches :=
    match m.marker.source with
    | some s => if s = "" then none else ext.filterText text s
    | none => none
  codeMatches :=
    match m.marker.code with
    | some (MarkerCode.str c) => if c = "" then none else ext.filterText text c
    | some (MarkerCode.link v _) => ext.filterText text v
    | none => none
  messageMatches := ext.messageFilter text m.marker.message
  fileMatches := ext.messageFilter text (ext.getUriLabel m.resource)
  ownerMatches := ext.messageFilter text m.marker.owner

/-- The `matched` value of the text-filter branch: the disjunction of the five
results' truthiness (in the source a defined span array — even an empty one —
is truthy, an undefined result is falsy). -/
def TextMatches.matched (t : TextMatches) : Bool :=
  t.sourceMatches.isSome || t.codeMatches.isSome || t.messageMatches.isSome ||
  t.fileMatches.isSome || t.ownerMatches.isSome

/-- The body of the per-marker loop of `MarkersTable.reset`: skip walkthrough
schemes, skip exclude-matched resources, admit include-matched resources
unconditionally without spans, then require an enabled severity toggle, then
apply the text filter under the negate rule (attaching the spans), and with no
text filter admit the marker without spans. -/
def processMarker (ext : ExtServices) (fo : FilterOptions) (m : Marker) :
    Option MarkerTableItem :=
  if m.resource.scheme = Schemas.walkThrough ∨
      m.resource.scheme = Schemas.walkThroughSnippet then
    none
  else if fo.excludesMatcher m.resource then
    none
  else if fo.includesMatcher m.resource then
    some ⟨m, none, none, none, none, none⟩
  else if !matchesSeverity fo m then
    none
  else if fo.textFilter.text ≠ "" then
    if ((computeMatches ext fo.textFilter.text m).matched && !fo.textFilter.negate) ||
        (!(computeMatches ext fo.textFilter.text m).matched && fo.textFilter.negate) then
      some ⟨m, (computeMatches ext fo.textFilter.text m).sourceMatches,
        (computeMatches ext fo.textFilter.text m).codeMatches,
        (computeMatches ext fo.textFilter.text m).messageMatches,
        (computeMatches ext fo.textFilter.text m).fileMatches,
        (computeMatches ext fo.textFilter.text m).ownerMatches⟩
    else
      none
  else
    some ⟨m, none, none, none, none, none⟩

/-- The item collection of `reset`: the flattened groups, each marker run
through the loop body, in encounter order (before the sort). -/
def collectItems (ext : ExtServices) (fo : FilterOptions)
    (resourceMarkers : List ResourceMarkers) : List MarkerTableItem :=
  resourceMarkers.flatMap fun g => g.markers.filterMap (processMarker ext fo)

/-- The order the sort uses: the severity comparator is nonpositive (`a`
sorts no later than `b`). -/
def itemLE (a b : MarkerTableItem) : Prop :=
  MarkerSeverity.compare a.marker.marker.severity b.marker.marker.severity ≤ 0

instance : DecidableRel itemLE :=
  fun _ _ => Int.decLe _ _

instance : IsTotal MarkerTableItem itemLE :=
  ⟨fun a b => by
    unfold itemLE MarkerSeverity.compare
    omega⟩

instance : IsTrans MarkerTableItem itemLE :=
  ⟨fun a b c hab hbc => by
    unfold itemLE MarkerSeverity.compare at *
    omega⟩

/-- The `MarkersTable` controller state: the stored groups, the filter
options, the `_itemCount` field, and the underlying virtual table's row
contents and focus state. -/
structure MarkersTable where
  resourceMarkers : List ResourceMarkers
  filterOptions : FilterOptions
  itemCount : Nat
  tableItems : List MarkerTableItem
  tableFocus : List Nat

/-- `MarkersTable.reset`: store the groups, collect the filtered items, record
their number in `_itemCount`, and splice the items — sorted by the severity
comparator with a stable sort (`List.insertionSort`, extensionally the unique
stable sort, as the JavaScript array sort of a consistent comparator is) —
into the table as its full contents. -/
def MarkersTable.reset (ext : ExtServices) (st : MarkersTable)
    (resourceMarkers : List ResourceMarkers) : MarkersTable :=
  let items := collectItems ext st.filterOptions resourceMarkers
  { st with
    resourceMarkers := resourceMarkers
    itemCount := items.length
    tableItems := List.insertionSort itemLE items }

/-- `MarkersTable.filterMarkers`: store the new filter options and delegate to
`reset`. -/
def MarkersTable.filterMarkers (ext : ExtServices) (st : MarkersTable)
    (resourceMarkers : List ResourceMarkers) (filterOptions : FilterOptions) :
    MarkersTable :=
  MarkersTable.reset ext { st with filterOptions := filterOptions } resourceMarkers

/-- `MarkersTable.getFocus`: the source returns the empty array literal. -/
def MarkersTable.getFocus (_st : MarkersTable) : List (Option Marker) :=
  []

/-- `MarkersTable.getVisibleItemCount`: returns the stored `_itemCount`. -/
def MarkersTable.getVisibleItemCount (st : MarkersTable) : Nat :=
  st.itemCount

/-- JavaScript `Array.prototype.indexOf` over the stored groups, comparing by
object identity (the `gid` field); `-1` when absent. -/
def jsIndexOf (l : List ResourceMarkers) (g : ResourceMarkers) : Int :=
  match l with
  | [] => -1
  | a :: rest =>
    if a.gid = g.gid then 0
    else if jsIndexOf rest g < 0 then -1 else jsIndexOf rest g + 1

/-- JavaScript `Array.prototype.splice(start, 1, x)`: a negative start counts
from the end and is clamped at 0; one element at the resulting position is
replaced by `x` (appended when the position is past the end). -/
def jsSpliceReplaceOne {α : Type} (l : List α) (start : Int) (x : α) : List α :=
  let len : Int := l.length
  let actual : Nat := (if start < 0 then max (len + start) 0 else min start len).toNat
  l.take actual ++ [x] ++ l.drop (actual + 1)

/-- `MarkersTable.update`: for each argument group, `splice` it over the index
`indexOf` finds for it in the stored groups, then `reset` with the full stored
set. -/
def MarkersTable.update (ext : ExtServices) (st : MarkersTable)
    (resourceMarkers : List ResourceMarkers) : MarkersTable :=
  let rm := resourceMarkers.foldl
    (fun acc g => jsSpliceReplaceOne acc (jsIndexOf acc g) g) st.resourceMarkers
  MarkersTable.reset ext { st with resourceMarkers := rm } rm

/-! ### Concrete fixtures used by witnesses and counterexamples -/

/-- A sample file resource. -/
def uriA : URI := ⟨"file", "src/a.ts"⟩

/-- A second sample file resource. -/
def uriB : URI := ⟨"file", "src/b.ts"⟩

/-- A sample error marker on `uriA`. -/
def mErr : Marker :=
  ⟨"m1", ⟨"ts", uriA, MarkerSeverity.Error, "missing semicolon", some "ts",
    some (MarkerCode.str "1005"), 1, 1⟩, none⟩

/-- A sample warning marker on `uriA`. -/
def mWarn : Marker :=
  ⟨"m2", ⟨"ts", uriA, MarkerSeverity.Warning, "unused var", none, none, 2, 1⟩, none⟩

/-- A sample info marker on `uriB`. -/
def mInfo : Marker :=
  ⟨"m3", ⟨"eslint", uriB, MarkerSeverity.Info, "style issue", none, none, 3, 1⟩, none⟩

/-- A sample group holding the error and warning markers. -/
def grpA : ResourceMarkers := ⟨0, uriA, [mErr, mWarn]⟩

/-- A sample group holding the info marker. -/
def grpB : ResourceMarkers := ⟨1, uriB, [mInfo]⟩

/-- A replacement group whose identity matches no stored group. -/
def grpC : ResourceMarkers := ⟨2, uriB, []⟩

/-- A filter specification with all severities enabled, no matchers and no
text. -/
def foAll : FilterOptions :=
  ⟨true, true, true, fun _ => false, fun _ => false, ⟨"", false⟩⟩

/-- Sample external services: both filter utilities match on string equality
with a single span, and the label service formats a resource as its path. -/
def extEq : ExtServices :=
  ⟨fun t s => if t = s then some [⟨0, 1⟩] else none,
   fun t s => if t = s then some [⟨0, 1⟩] else none,
   fun u => u.path⟩

/-- An empty table state carrying `foAll`. -/
def stEmpty : MarkersTable := ⟨[], foAll, 0, [], []⟩

/-- A table state whose underlying table focus is nonempty. -/
def stFocus : MarkersTable := ⟨[], foAll, 0, [], [0]⟩

/-- A table state storing both sample groups. -/
def stAB : MarkersTable := ⟨[grpA, grpB], foAll, 0, [], []⟩

/-- The plain row item wrapping the sample error marker. -/
def itemErr : MarkerTableItem := ⟨mErr, none, none, none, none, none⟩

/-! ### Shared lemmas about `reset` and the per-marker loop body -/

/-- Membership in the spliced table contents is membership in the collected
items (the sort permutes). -/
lemma mem_reset_tableItems {ext : ExtServices} {st : MarkersTable}
    {groups : List ResourceMarkers} {item : MarkerTableItem} :
    item ∈ (MarkersTable.reset ext st groups).tableItems ↔
      item ∈ collectItems ext st.filterOptions groups :=
  (List.perm_insertionSort itemLE (collectItems ext st.filterOptions groups)).mem_iff

/-- Membership in the collected items, unfolded to the per-marker loop
body. -/
lemma mem_collectItems {ext : ExtServices} {fo : FilterOptions}
    {groups : List ResourceMarkers} {item : MarkerTableItem} :
    item ∈ collectItems ext fo groups ↔
      ∃ g ∈ groups, ∃ m ∈ g.markers, processMarker ext fo m = some item := by
  simp [collectItems, List.mem_flatMap, List.mem_filterMap]

/-- A produced row item wraps exactly the processed marker. -/
lemma processMarker_marker_eq {ext : ExtServices} {fo : FilterOptions}
    {m : Marker} {item : MarkerTableItem}
    (h : processMarker ext fo m = some item) : item.marker = m := by
  unfold processMarker at h
  split_ifs at h <;>
    first
      | exact Option.noConfusion h
      | (injection h with h; subst h; rfl)

/-- A produced row item's marker is not on a walkthrough scheme and not
exclude-matched. -/
lemma processMarker_scheme_exclude {ext : ExtServices} {fo : FilterOptions}
    {m : Marker} {item : MarkerTableItem}
    (h : processMarker ext fo m = some item) :
    m.resource.scheme ≠ Schemas.walkThrough ∧
    m.resource.scheme ≠ Schemas.walkThroughSnippet ∧
    fo.excludesMatcher m.resource = false := by
  unfold processMarker at h
  split_ifs at h with h1 h2 <;>
    first
      | exact Option.noConfusion h
      | simp_all [not_or]

/-- On an include-matched resource the loop body yields the plain item. -/
lemma processMarker_include {ext : ExtServices} {fo : FilterOptions}
    {m : Marker} {item : MarkerTableItem}
    (h : processMarker ext fo m = some item)
    (hincl : fo.includesMatcher m.resource = true) :
    item = ⟨m, none, none, none, none, none⟩ := by
  obtain ⟨hs1, hs2, hexcl⟩ := processMarker_scheme_exclude h
  unfold processMarker at h
  rw [if_neg (by simp [not_or, hs1, hs2]), if_neg (by simp [hexcl]),
    if_pos (by simp [hincl])] at h
  injection h with h
  exact h.symm

/-- On a resource that is not include-matched the loop body enforces the
severity toggle and the negate rule, and attaches exactly the computed
spans. -/
lemma processMarker_not_include {ext : ExtServices} {fo : FilterOptions}
    {m : Marker} {item : MarkerTableItem}
    (h : processMarker ext fo m = some item)
    (hincl : fo.includesMatcher m.resource = false) :
    matchesSeverity fo m = true ∧
    (fo.textFilter.text ≠ "" →
      (computeMatches ext fo.textFilter.text m).matched = !fo.textFilter.negate ∧
      item = ⟨m, (computeMatches ext fo.textFilter.text m).sourceMatches,
        (computeMatches ext fo.textFilter.text m).codeMatches,
        (computeMatches ext fo.textFilter.text m).messageMatches,
        (computeMatches ext fo.textFilter.text m).fileMatches,
        (computeMatches ext fo.textFilter.text m).ownerMatches⟩) ∧
    (fo.textFilter.text = "" → item = ⟨m, none, none, none, none, none⟩) := by
  obtain ⟨hs1, hs2, hexcl⟩ := processMarker_scheme_exclude h
  unfold processMarker at h
  rw [if_neg (by simp [not_or, hs1, hs2]), if_neg (by simp [hexcl]),
    if_neg (by simp [hincl])] at h
  by_cases hsev : matchesSeverity fo m = true
  · rw [if_neg (by simp [hsev])] at h
    refine ⟨hsev, ?_, ?_⟩
    · intro ht
      rw [if_pos ht] at h
      by_cases hg : (((computeMatches ext fo.textFilter.text m).matched &&
          !fo.textFilter.negate) ||
          (!(computeMatches ext fo.textFilter.text m).matched &&
            fo.textFilter.negate)) = true
      · rw [if_pos hg] at h
        injection h with h
        subst h
        refine ⟨?_, rfl⟩
        cases hmm : (computeMatches ext fo.textFilter.text m).matched <;>
          cases hnn : fo.textFilter.negate <;> simp_all
      · rw [if_neg hg] at h
        exact Option.noConfusion h
    · intro ht
      rw [if_neg (by simp [ht])] at h
      injection h with h
      exact h.symm
  · rw [if_pos (by simp [hsev])] at h
    exact Option.noConfusion h

/-- The loop body admits a marker that survives the scheme and exclude checks
and is include-matched, producing the plain item. -/
lemma processMarker_include_some {ext : ExtServices} {fo : FilterOptions}
    {m : Marker}
    (h1 : m.resource.scheme ≠ Schemas.walkThrough)
    (h2 : m.resource.scheme ≠ Schemas.walkThroughSnippet)
    (hexcl : fo.excludesMatcher m.resource = false)
    (hincl : fo.includesMatcher m.resource = true) :
    processMarker ext fo m = some ⟨m, none, none, none, none, none⟩ := by
  unfold processMarker
  rw [if_neg (by simp [not_or, h1, h2]), if_neg (by simp [hexcl]), if_pos hincl]

/-- A filter specification whose include matcher accepts `uriA`, with all
severity toggles off and a non-empty text filter. -/
def foIncl : FilterOptions :=
  ⟨false, false, false, fun _ => false, fun u => decide (u = uriA),
    ⟨"missing semicolon", false⟩⟩

/-- An empty table state carrying `foIncl`. -/
def stIncl : MarkersTable := ⟨[], foIncl, 0, [], []⟩

/-- A filter specification with all severities on, no matchers and the text
"unused var" (negate off). -/
def foText : FilterOptions :=
  ⟨true, true, true, fun _ => false, fun _ => false, ⟨"unused var", false⟩⟩

/-- An empty table state carrying `foText`. -/
def stText : MarkersTable := ⟨[], foText, 0, [], []⟩

/-! ### The claims -/

/-- Claim C1: every row item in the visible set produced by `reset` wraps a
marker whose resource scheme is neither walkthrough pseudo-scheme, whose
resource is not exclude-matched, and which is include-matched or else has its
severity toggle enabled and satisfies the text filter under the negate rule;
and `filterMarkers` delegates to `reset` after storing the filter. -/
theorem spec_c1_visible_rows_pass_filter (ext : ExtServices) (st : MarkersTable)
    (groups : List ResourceMarkers) (fo : FilterOptions) (item : MarkerTableItem) :
    (item ∈ (MarkersTable.reset ext st groups).tableItems →
      (item.marker.resource.scheme ≠ Schemas.walkThrough ∧
        item.marker.resource.scheme ≠ Schemas.walkThroughSnippet) ∧
      st.filterOptions.excludesMatcher item.marker.resource = false ∧
      (st.filterOptions.includesMatcher item.marker.resource = true ∨
        (matchesSeverity st.filterOptions item.marker = true ∧
          (st.filterOptions.textFilter.text ≠ "" →
            (computeMatches ext st.filterOptions.textFilter.text item.marker).matched =
              !st.filterOptions.textFilter.negate)))) ∧
    MarkersTable.filterMarkers ext st groups fo =
      MarkersTable.reset ext { st with filterOptions := fo } groups := by
  constructor
  · intro h
    rw [mem_reset_tableItems, mem_collectItems] at h
    obtain ⟨g, hg, m, hm, hpm⟩ := h
    have hmar := processMarker_marker_eq hpm
    subst hmar
    obtain ⟨hs1, hs2, hexcl⟩ := processMarker_scheme_exclude hpm
    refine ⟨⟨hs1, hs2⟩, hexcl, ?_⟩
    by_cases hincl : st.filterOptions.includesMatcher item.marker.resource = true
    · exact Or.inl hincl
    · right
      have hni : st.filterOptions.includesMatcher item.marker.resource = false := by
        simpa using hincl
      obtain ⟨hsev, htext, _⟩ := processMarker_not_include hpm hni
      exact ⟨hsev, fun ht => (htext ht).1⟩
  · rfl

/-- Claim C1 witness: a concrete visible row satisfies the filter
property. -/
theorem spec_c1_witness :
    itemErr ∈ (MarkersTable.reset extEq stEmpty [grpA]).tableItems ∧
    ((itemErr.marker.resource.scheme ≠ Schemas.walkThrough ∧
        itemErr.marker.resource.scheme ≠ Schemas.walkThroughSnippet) ∧
      stEmpty.filterOptions.excludesMatcher itemErr.marker.resource = false ∧
      (stEmpty.filterOptions.includesMatcher itemErr.marker.resource = true ∨
        (matchesSeverity stEmpty.filterOptions itemErr.marker = true ∧
          (stEmpty.filterOptions.textFilter.text ≠ "" →
            (computeMatches extEq stEmpty.filterOptions.textFilter.text
                itemErr.marker).matched =
              !stEmpty.filterOptions.textFilter.negate)))) :=
  ⟨by decide,
    (spec_c1_visible_rows_pass_filter extEq stEmpty [grpA] foAll itemErr).1 (by decide)⟩

/-- Claim C3: a marker of the dataset that survives the scheme and exclude
checks and whose resource is include-matched appears in the visible set,
whatever the severity toggles and text filter in the remaining filter options
say. -/
theorem spec_c3_include_bypass_membership (ext : ExtServices) (st : MarkersTable)
    (groups : List ResourceMarkers) (g : ResourceMarkers) (m : Marker)
    (hg : g ∈ groups) (hm : m ∈ g.markers)
    (h1 : m.resource.scheme ≠ Schemas.walkThrough)
    (h2 : m.resource.scheme ≠ Schemas.walkThroughSnippet)
    (hexcl : st.filterOptions.excludesMatcher m.resource = false)
    (hincl : st.filterOptions.includesMatcher m.resource = true) :
    (⟨m, none, none, none, none, none⟩ : MarkerTableItem) ∈
      (MarkersTable.reset ext st groups).tableItems := by
  rw [mem_reset_tableItems, mem_collectItems]
  exact ⟨g, hg, m, hm, processMarker_include_some h1 h2 hexcl hincl⟩

/-- Claim C3 witness: with every severity toggle off and a set text filter,
an include-matched marker is still visible. -/
theorem spec_c3_witness :
    itemErr ∈ (MarkersTable.reset extEq stIncl [grpA]).tableItems :=
  spec_c3_include_bypass_membership extEq stIncl [grpA] grpA mErr (by decide)
    (by decide) (by decide) (by decide) (by decide) (by decide)

/-- Claim C6: `reset` run twice with the same groups and the same filter
options produces the same visible row sequence and the same visible item
count. -/
theorem spec_c6_reset_idempotent (ext : ExtServices) (st : MarkersTable)
    (groups : List ResourceMarkers) :
    (MarkersTable.reset ext (MarkersTable.reset ext st groups) groups).tableItems =
      (MarkersTable.reset ext st groups).tableItems ∧
    (MarkersTable.reset ext (MarkersTable.reset ext st groups) groups).getVisibleItemCount =
      (MarkersTable.reset ext st groups).getVisibleItemCount :=
  ⟨rfl, rfl⟩

/-- Claim C9 counterexample: `getFocus` returns the empty list even on a state
whose underlying table focus is nonempty, and its value does not change with
the focus state — it is a constant, not a passthrough. -/
theorem spec_c9_counterexample :
    stFocus.tableFocus ≠ stEmpty.tableFocus ∧
    MarkersTable.getFocus stFocus = MarkersTable.getFocus stEmpty ∧
    MarkersTable.getFocus stFocus = [] :=
  ⟨by decide, rfl, rfl⟩

/-- Claim C9 (amended): `getFocus` is a stub returning the empty list
regardless of the table state. -/
theorem spec_c9_getFocus_always_empty (st : MarkersTable) :
    MarkersTable.getFocus st = [] :=
  rfl

/-- Claim C10: a row item admitted via the include-pattern bypass carries no
match spans in any of its five span fields, even when a free-text filter is
set. -/
theorem spec_c10_include_bypass_no_spans (ext : ExtServices) (st : MarkersTable)
    (groups : List ResourceMarkers) (item : MarkerTableItem)
    (h : item ∈ (MarkersTable.reset ext st groups).tableItems)
    (hincl : st.filterOptions.includesMatcher item.marker.resource = true) :
    item.sourceMatches = none ∧ item.codeMatches = none ∧
    item.messageMatches = none ∧ item.fileMatches = none ∧
    item.ownerMatches = none := by
  rw [mem_reset_tableItems, mem_collectItems] at h
  obtain ⟨g, hg, m, hm, hpm⟩ := h
  have hmar := processMarker_marker_eq hpm
  subst hmar
  have hplain := processMarker_include hpm hincl
  refine ⟨?_, ?_, ?_, ?_, ?_⟩ <;> rw [hplain]

/-- Claim C10 witness: a concrete include-matched row under a set text filter
has no spans. -/
theorem spec_c10_witness :
    itemErr ∈ (MarkersTable.reset extEq stIncl [grpA]).tableItems ∧
    (itemErr.sourceMatches = none ∧ itemErr.codeMatches = none ∧
      itemErr.messageMatches = none ∧ itemErr.fileMatches = none ∧
      itemErr.ownerMatches = none) :=
  ⟨by decide,
    spec_c10_include_bypass_no_spans extEq stIncl [grpA] itemErr (by decide) (by decide)⟩

/-- Claim C2: in the visible row list produced by `reset`, adjacent rows have
nondecreasing severity rank (Error before Warning before Info), and within
each severity the rows keep the encounter order of the collected items — the
sort is stable, and as a function of its input, deterministic. -/
theorem spec_c2_sorted_and_stable (ext : ExtServices) (st : MarkersTable)
    (groups : List ResourceMarkers) :
    List.Chain'
      (fun a b =>
        a.marker.marker.severity.rank ≤ b.marker.marker.severity.rank)
      (MarkersTable.reset ext st groups).tableItems ∧
    ∀ s : MarkerSeverity,
      (MarkersTable.reset ext st groups).tableItems.filter
        (fun it => it.marker.marker.severity == s) =
      (collectItems ext st.filterOptions groups).filter
        (fun it => it.marker.marker.severity == s) := by
  constructor
  · have hs := List.sorted_insertionSort itemLE
      (collectItems ext st.filterOptions groups)
    refine List.Chain'.imp ?_ hs.chain'
    intro a b hab
    unfold itemLE MarkerSeverity.compare at hab
    omega
  · intro s
    have hpair :
        ((collectItems ext st.filterOptions groups).filter
          (fun it => it.marker.marker.severity == s)).Pairwise itemLE := by
      apply List.pairwise_of_forall_mem_list
      intro a ha b hb
      have hsa : a.marker.marker.severity = s := by
        simpa using List.of_mem_filter ha
      have hsb : b.marker.marker.severity = s := by
        simpa using List.of_mem_filter hb
      unfold itemLE MarkerSeverity.compare
      rw [hsa, hsb]
      omega
    have hsub :
        ((collectItems ext st.filterOptions groups).filter
          (fun it => it.marker.marker.severity == s)).Sublist
          (List.insertionSort itemLE (collectItems ext st.filterOptions groups)) :=
      List.sublist_insertionSort hpair (List.filter_sublist _)
    have hsub2 :
        ((collectItems ext st.filterOptions groups).filter
          (fun it => it.marker.marker.severity == s)).Sublist
          ((List.insertionSort itemLE
            (collectItems ext st.filterOptions groups)).filter
            (fun it => it.marker.marker.severity == s)) := by
      have h2 := hsub.filter (fun it => it.marker.marker.severity == s)
      rwa [List.filter_filter,
        (by
          funext a
          exact Bool.and_self _ :
          (fun (a : MarkerTableItem) =>
            (a.marker.marker.severity == s) && (a.marker.marker.severity == s)) =
          (fun a => a.marker.marker.severity == s))] at h2
    have hperm :
        ((List.insertionSort itemLE
          (collectItems ext st.filterOptions groups)).filter
          (fun it => it.marker.marker.severity == s)).Perm
        ((collectItems ext st.filterOptions groups).filter
          (fun it => it.marker.marker.severity == s)) :=
      (List.perm_insertionSort itemLE _).filter _
    exact (hsub2.eq_of_length hperm.length_eq.symm).symm

/-- Claim C4: for a marker of the dataset that reaches the text filter (not a
walkthrough scheme, not excluded, not include-matched, severity enabled) and a
set text, a row wrapping it is visible exactly when the `matched` disjunction
over the five fields equals the negation of the negate flag: with negate on,
visible iff no field matched; with negate off, visible iff some field
matched. -/
theorem spec_c4_negate_semantics (ext : ExtServices) (st : MarkersTable)
    (groups : List ResourceMarkers) (m : Marker)
    (hmem : ∃ g ∈ groups, m ∈ g.markers)
    (h1 : m.resource.scheme ≠ Schemas.walkThrough)
    (h2 : m.resource.scheme ≠ Schemas.walkThroughSnippet)
    (hexcl : st.filterOptions.excludesMatcher m.resource = false)
    (hincl : st.filterOptions.includesMatcher m.resource = false)
    (hsev : matchesSeverity st.filterOptions m = true)
    (htext : st.filterOptions.textFilter.text ≠ "") :
    (∃ item ∈ (MarkersTable.reset ext st groups).tableItems, item.marker = m) ↔
      (computeMatches ext st.filterOptions.textFilter.text m).matched =
        !st.filterOptions.textFilter.negate := by
  constructor
  · rintro ⟨item, hit, hmar⟩
    rw [mem_reset_tableItems, mem_collectItems] at hit
    obtain ⟨g, hg, m', hm', hpm⟩ := hit
    have heq := processMarker_marker_eq hpm
    have hmm : m' = m := by rw [← heq, hmar]
    subst hmm
    exact ((processMarker_not_include hpm hincl).2.1 htext).1
  · intro hmatch
    obtain ⟨g, hg, hm⟩ := hmem
    refine ⟨⟨m, (computeMatches ext st.filterOptions.textFilter.text m).sourceMatches,
      (computeMatches ext st.filterOptions.textFilter.text m).codeMatches,
      (computeMatches ext st.filterOptions.textFilter.text m).messageMatches,
      (computeMatches ext st.filterOptions.textFilter.text m).fileMatches,
      (computeMatches ext st.filterOptions.textFilter.text m).ownerMatches⟩,
      ?_, rfl⟩
    rw [mem_reset_tableItems, mem_collectItems]
    refine ⟨g, hg, m, hm, ?_⟩
    have hgate :
        (((computeMatches ext st.filterOptions.textFilter.text m).matched &&
          !st.filterOptions.textFilter.negate) ||
          (!(computeMatches ext st.filterOptions.textFilter.text m).matched &&
            st.filterOptions.textFilter.negate)) = true := by
      rw [hmatch]
      cases st.filterOptions.textFilter.negate <;> simp
    unfold processMarker
    rw [if_neg (by simp [not_or, h1, h2]), if_neg (by simp [hexcl]),
      if_neg (by simp [hincl]), if_neg (by simp [hsev]), if_pos htext,
      if_pos hgate]

/-- Claim C4 witness: with text "unused var" and negate off, the warning
marker whose message is "unused var" is visible, and the equivalence holds at
this concrete input. -/
theorem spec_c4_witness :
    (∃ item ∈ (MarkersTable.reset extEq stText [grpA]).tableItems,
        item.marker = mWarn) ↔
      (computeMatches extEq stText.filterOptions.textFilter.text mWarn).matched =
        !stText.filterOptions.textFilter.negate :=
  spec_c4_negate_semantics extEq stText [grpA] mWarn (by decide) (by decide)
    (by decide) (by decide) (by decide) (by decide) (by decide)

/-- Claim C7: with an absent or empty filter text (the empty string, falsy in
the source), `reset` applies no text filter: every visible row carries no
match spans, and every marker of the dataset that passes the scheme, exclude
and include-or-severity checks is visible as a plain item; the whole pipeline
is a total function, so no input makes it throw. -/
theorem spec_c7_empty_text_no_text_filter (ext : ExtServices) (st : MarkersTable)
    (groups : List ResourceMarkers)
    (htext : st.filterOptions.textFilter.text = "") :
    (∀ item ∈ (MarkersTable.reset ext st groups).tableItems,
      item.sourceMatches = none ∧ item.codeMatches = none ∧
      item.messageMatches = none ∧ item.fileMatches = none ∧
      item.ownerMatches = none) ∧
    (∀ g ∈ groups, ∀ m ∈ g.markers,
      m.resource.scheme ≠ Schemas.walkThrough →
      m.resource.scheme ≠ Schemas.walkThroughSnippet →
      st.filterOptions.excludesMatcher m.resource = false →
      (st.filterOptions.includesMatcher m.resource = true ∨
        matchesSeverity st.filterOptions m = true) →
      (⟨m, none, none, none, none, none⟩ : MarkerTableItem) ∈
        (MarkersTable.reset ext st groups).tableItems) := by
  constructor
  · intro item hit
    rw [mem_reset_tableItems, mem_collectItems] at hit
    obtain ⟨g, hg, m, hm, hpm⟩ := hit
    by_cases hincl : st.filterOptions.includesMatcher m.resource = true
    · have hplain := processMarker_include hpm hincl
      refine ⟨?_, ?_, ?_, ?_, ?_⟩ <;> rw [hplain]
    · have hni : st.filterOptions.includesMatcher m.resource = false := by
        simpa using hincl
      have hplain := (processMarker_not_include hpm hni).2.2 htext
      refine ⟨?_, ?_, ?_, ?_, ?_⟩ <;> rw [hplain]
  · intro g hg m hm hs1 hs2 hexcl hor
    rw [mem_reset_tableItems, mem_collectItems]
    refine ⟨g, hg, m, hm, ?_⟩
    rcases hor with hincl | hsev
    · exact processMarker_include_some hs1 hs2 hexcl hincl
    · by_cases hincl : st.filterOptions.includesMatcher m.resource = true
      · exact processMarker_include_some hs1 hs2 hexcl hincl
      · unfold processMarker
        rw [if_neg (by simp [not_or, hs1, hs2]), if_neg (by simp [hexcl]),
          if_neg (by simp [hincl]), if_neg (by simp [hsev]),
          if_neg (by simp [htext])]

/-- Claim C7 witness: with the empty filter text, a severity-enabled marker is
visible as a plain item. -/
theorem spec_c7_witness :
    stAB.filterOptions.textFilter.text = "" ∧
    (⟨mInfo, none, none, none, none, none⟩ : MarkerTableItem) ∈
      (MarkersTable.reset extEq stAB [grpA, grpB]).tableItems :=
  ⟨rfl,
    (spec_c7_empty_text_no_text_filter extEq stAB [grpA, grpB] rfl).2 grpB
      (by decide) mInfo (by decide) (by decide) (by decide) (by decide)
      (Or.inr (by decide))⟩

/-- Claim C8: under the collaborator contract that the external match utility
signals a match with a (non-empty) span list and no match with the no-match
signal, a marker counts as matched exactly when one of the five independently
computed span results is a non-empty span list; an absent source or code field
contributes no match. -/
theorem spec_c8_matched_iff_nonempty_spans (ext : ExtServices) (text : String)
    (m : Marker)
    (hf : ∀ t s l, ext.filterText t s = some l → l ≠ [])
    (hmf : ∀ t s l, ext.messageFilter t s = some l → l ≠ []) :
    ((computeMatches ext text m).matched = true ↔
      ∃ l, l ≠ [] ∧
        ((computeMatches ext text m).sourceMatches = some l ∨
          (computeMatches ext text m).codeMatches = some l ∨
          (computeMatches ext text m).messageMatches = some l ∨
          (computeMatches ext text m).fileMatches = some l ∨
          (computeMatches ext text m).ownerMatches = some l)) ∧
    (m.marker.source = none → (computeMatches ext text m).sourceMatches = none) ∧
    (m.marker.code = none → (computeMatches ext text m).codeMatches = none) := by
  have hsrc : ∀ l, (computeMatches ext text m).sourceMatches = some l → l ≠ [] := by
    intro l h
    simp only [computeMatches] at h
    cases hsc : m.marker.source with
    | none => rw [hsc] at h; exact Option.noConfusion h
    | some s =>
      rw [hsc] at h
      dsimp only at h
      by_cases hse : s = ""
      · rw [if_pos hse] at h; exact Option.noConfusion h
      · rw [if_neg hse] at h; exact hf _ _ _ h
  have hcode : ∀ l, (computeMatches ext text m).codeMatches = some l → l ≠ [] := by
    intro l h
    simp only [computeMatches] at h
    cases hsc : m.marker.code with
    | none => rw [hsc] at h; exact Option.noConfusion h
    | some c =>
      rw [hsc] at h
      cases c with
      | str v =>
        dsimp only at h
        by_cases hse : v = ""
        · rw [if_pos hse] at h; exact Option.noConfusion h
        · rw [if_neg hse] at h; exact hf _ _ _ h
      | link v t =>
        dsimp only at h
        exact hf _ _ _ h
  have hmsg : ∀ l, (computeMatches ext text m).messageMatches = some l → l ≠ [] := by
    intro l h
    simp only [computeMatches] at h
    exact hmf _ _ _ h
  have hfile : ∀ l, (computeMatches ext text m).fileMatches = some l → l ≠ [] := by
    intro l h
    simp only [computeMatches] at h
    exact hmf _ _ _ h
  have howner : ∀ l, (computeMatches ext text m).ownerMatches = some l → l ≠ [] := by
    intro l h
    simp only [computeMatches] at h
    exact hmf _ _ _ h
  refine ⟨⟨?_, ?_⟩, ?_, ?_⟩
  · intro hmt
    unfold TextMatches.matched at hmt
    simp only [Bool.or_eq_true, Option.isSome_iff_exists] at hmt
    rcases hmt with (((⟨l, hl⟩ | ⟨l, hl⟩) | ⟨l, hl⟩) | ⟨l, hl⟩) | ⟨l, hl⟩
    · exact ⟨l, hsrc l hl, Or.inl hl⟩
    · exact ⟨l, hcode l hl, Or.inr (Or.inl hl)⟩
    · exact ⟨l, hmsg l hl, Or.inr (Or.inr (Or.inl hl))⟩
    · exact ⟨l, hfile l hl, Or.inr (Or.inr (Or.inr (Or.inl hl)))⟩
    · exact ⟨l, howner l hl, Or.inr (Or.inr (Or.inr (Or.inr hl)))⟩
  · rintro ⟨l, _, h | h | h | h | h⟩ <;>
      (unfold TextMatches.matched; simp [h])
  · intro hn
    simp only [computeMatches]
    rw [hn]
  · intro hn
    simp only [computeMatches]
    rw [hn]

/-- Claim C8 witness: the equivalence and absence clauses at a concrete
marker, text and match utility satisfying the non-empty-span contract. -/
theorem spec_c8_witness :
    ((computeMatches extEq "foo" mWarn).matched = true ↔
      ∃ l, l ≠ [] ∧
        ((computeMatches extEq "foo" mWarn).sourceMatches = some l ∨
          (computeMatches extEq "foo" mWarn).codeMatches = some l ∨
          (computeMatches extEq "foo" mWarn).messageMatches = some l ∨
          (computeMatches extEq "foo" mWarn).fileMatches = some l ∨
          (computeMatches extEq "foo" mWarn).ownerMatches = some l)) ∧
    (mWarn.marker.source = none → (computeMatches extEq "foo" mWarn).sourceMatches = none) ∧
    (mWarn.marker.code = none → (computeMatches extEq "foo" mWarn).codeMatches = none) :=
  spec_c8_matched_iff_nonempty_spans extEq "foo" mWarn
    (by
      intro t s l h
      simp only [extEq] at h
      by_cases he : t = s
      · rw [if_pos he] at h
        injection h with h
        subst h
        simp
      · rw [if_neg he] at h
        exact Option.noConfusion h)
    (by
      intro t s l h
      simp only [extEq] at h
      by_cases he : t = s
      · rw [if_pos he] at h
        injection h with h
        subst h
        simp
      · rw [if_neg he] at h
        exact Option.noConfusion h)

/-- `splice(start, 1, x)` at a nonnegative start is plain take/replace/drop. -/
lemma jsSpliceReplaceOne_ofNat {α : Type} (l : List α) (n : Nat) (x : α) :
    jsSpliceReplaceOne l (n : Int) x = l.take n ++ [x] ++ l.drop (n + 1) := by
  simp only [jsSpliceReplaceOne]
  rw [if_neg (by omega)]
  have hmin : (min (n : Int) ((l.length : Nat) : Int)).toNat = min n l.length := by
    omega
  rw [hmin]
  rcases le_or_lt n l.length with hle | hlt
  · rw [Nat.min_eq_left hle]
  · rw [Nat.min_eq_right (by omega)]
    rw [List.take_length, List.take_of_length_le (by omega),
      List.drop_eq_nil_of_le (by omega), List.drop_eq_nil_of_le (by omega)]

/-- `splice` at a positive index steps over the head. -/
lemma jsSpliceReplaceOne_cons_succ {α : Type} (a : α) (l : List α) (n : Nat)
    (x : α) :
    jsSpliceReplaceOne (a :: l) (((n + 1 : Nat)) : Int) x =
      a :: jsSpliceReplaceOne l (n : Int) x := by
  rw [jsSpliceReplaceOne_ofNat, jsSpliceReplaceOne_ofNat]
  simp [List.take_succ_cons, List.drop_succ_cons]

/-- `indexOf` of a group whose identity occurs in the list is a natural
number. -/
lemma jsIndexOf_exists_nat (l : List ResourceMarkers) (r : ResourceMarkers)
    (hmem : r.gid ∈ l.map ResourceMarkers.gid) :
    ∃ n : Nat, jsIndexOf l r = (n : Int) := by
  induction l with
  | nil => simp at hmem
  | cons a rest ih =>
    by_cases h : a.gid = r.gid
    · exact ⟨0, by simp [jsIndexOf, h]⟩
    · have hmem' : r.gid ∈ rest.map ResourceMarkers.gid := by
        rcases (by simpa using hmem :
            r.gid = a.gid ∨ r.gid ∈ rest.map ResourceMarkers.gid) with h' | h'
        · exact absurd h'.symm h
        · exact h'
      obtain ⟨n, hn⟩ := ih hmem'
      refine ⟨n + 1, ?_⟩
      simp only [jsIndexOf]
      rw [if_neg h, hn, if_neg (by omega)]
      omega

/-- `splice` over the index `indexOf` finds, with identities unique and the
replacement's identity present, replaces exactly the group with the matching
identity and keeps every other position unchanged. -/
lemma jsSplice_jsIndexOf_eq (l : List ResourceMarkers) (r : ResourceMarkers)
    (hnodup : (l.map ResourceMarkers.gid).Nodup)
    (hmem : r.gid ∈ l.map ResourceMarkers.gid) :
    jsSpliceReplaceOne l (jsIndexOf l r) r =
      l.map (fun g => if g.gid = r.gid then r else g) := by
  induction l with
  | nil => simp at hmem
  | cons a rest ih =>
    by_cases h : a.gid = r.gid
    · have h0 : jsIndexOf (a :: rest) r = ((0 : Nat) : Int) := by
        simp [jsIndexOf, h]
      have hnin : r.gid ∉ rest.map ResourceMarkers.gid := by
        rw [List.map_cons] at hnodup
        have := (List.nodup_cons.mp hnodup).1
        rw [h] at this
        exact this
      have hrest : rest.map (fun g => if g.gid = r.gid then r else g) = rest := by
        conv_rhs => rw [← List.map_id rest]
        apply List.map_congr_left
        intro g hg
        have hne : g.gid ≠ r.gid := fun hc =>
          hnin (hc ▸ List.mem_map_of_mem ResourceMarkers.gid hg)
        simp [hne]
      rw [h0, jsSpliceReplaceOne_ofNat]
      simp [h, hrest]
    · have hmem' : r.gid ∈ rest.map ResourceMarkers.gid := by
        rcases (by simpa using hmem :
            r.gid = a.gid ∨ r.gid ∈ rest.map ResourceMarkers.gid) with h' | h'
        · exact absurd h'.symm h
        · exact h'
      have hnodup' : (rest.map ResourceMarkers.gid).Nodup := by
        rw [List.map_cons] at hnodup
        exact (List.nodup_cons.mp hnodup).2
      obtain ⟨n, hn⟩ := jsIndexOf_exists_nat rest r hmem'
      have hidx : jsIndexOf (a :: rest) r = (((n + 1 : Nat)) : Int) := by
        simp only [jsIndexOf]
        rw [if_neg h, hn, if_neg (by omega)]
        omega
      have hrec := ih hnodup' hmem'
      rw [hn] at hrec
      rw [hidx, jsSpliceReplaceOne_cons_succ, hrec]
      simp [h]

/-- The `update` fold, with group identities unique and every replacement
found, replaces each stored group by the replacement carrying its identity
(first such replacement) and keeps all other groups at their positions. -/
lemma update_fold_eq (reps : List ResourceMarkers) (l : List ResourceMarkers)
    (hnodup : (l.map ResourceMarkers.gid).Nodup)
    (hrnodup : (reps.map ResourceMarkers.gid).Nodup)
    (hfound : ∀ r ∈ reps, r.gid ∈ l.map ResourceMarkers.gid) :
    reps.foldl (fun acc g => jsSpliceReplaceOne acc (jsIndexOf acc g) g) l =
      l.map (fun g => (reps.find? (fun r => r.gid == g.gid)).getD g) := by
  induction reps generalizing l with
  | nil => simp
  | cons r rest ih =>
    rw [List.foldl_cons,
      jsSplice_jsIndexOf_eq l r hnodup (hfound r (List.mem_cons_self r rest))]
    have hids :
        ((l.map fun g => if g.gid = r.gid then r else g).map
          ResourceMarkers.gid) = l.map ResourceMarkers.gid := by
      rw [List.map_map]
      apply List.map_congr_left
      intro g hg
      by_cases hgr : g.gid = r.gid
      · simp [Function.comp, hgr]
      · simp [Function.comp, hgr]
    have hrnodup' : (rest.map ResourceMarkers.gid).Nodup := by
      rw [List.map_cons] at hrnodup
      exact (List.nodup_cons.mp hrnodup).2
    have hrnin : r.gid ∉ rest.map ResourceMarkers.gid := by
      rw [List.map_cons] at hrnodup
      exact (List.nodup_cons.mp hrnodup).1
    rw [ih _ (by rw [hids]; exact hnodup) hrnodup'
      (by intro r' hr'; rw [hids]; exact hfound r' (List.mem_cons_of_mem _ hr'))]
    rw [List.map_map]
    apply List.map_congr_left
    intro g hg
    by_cases hgr : g.gid = r.gid
    · have hrestnone : rest.find? (fun r' => r'.gid == r.gid) = none := by
        rw [List.find?_eq_none]
        intro x hx hc
        exact hrnin (by
          rw [← (by simpa using hc : x.gid = r.gid)]
          exact List.mem_map_of_mem ResourceMarkers.gid hx)
      have hfind : (r :: rest).find? (fun r' => r'.gid == g.gid) = some r :=
        List.find?_cons_of_pos _ (by simp [hgr])
      simp [Function.comp, hgr, hfind, hrestnone]
    · have hfind : (r :: rest).find? (fun r' => r'.gid == g.gid) =
          rest.find? (fun r' => r'.gid == g.gid) :=
        List.find?_cons_of_neg _ (by
          simp only [beq_iff_eq]
          exact fun hc => hgr hc.symm)
      simp [Function.comp, hgr, hfind]

/-- Counting is stable under a map that fixes exactly the counted element's
fiber. -/
lemma count_map_of_fiber {α : Type} [DecidableEq α] (f : α → α) (l : List α)
    (x : α) (h : ∀ y, f y = x ↔ y = x) :
    (l.map f).count x = l.count x := by
  induction l with
  | nil => rfl
  | cons a l ih =>
    rw [List.map_cons, List.count_cons, List.count_cons, ih]
    by_cases hx : a = x
    · rw [if_pos (by simpa using (h a).mpr hx), if_pos (by simpa using hx)]
    · rw [if_neg (by simpa using fun hc => hx ((h a).mp hc)),
        if_neg (by simpa using hx)]

/-- A replacement group with the identity of `grpA` but only the error
marker. -/
def grpA2 : ResourceMarkers := ⟨0, uriA, [mErr]⟩

/-- Claim C5 counterexample: replacing by a group that no stored group matches
by identity, `update` drops the last stored group — `grpB` is not among the
replacements, its marker is visible under `reset`, yet after `update` the
stored dataset is `[grpA, grpC]` and the marker is gone. -/
theorem spec_c5_counterexample :
    (∀ r ∈ ([grpC] : List ResourceMarkers), r.gid ≠ grpB.gid) ∧
    (MarkersTable.update extEq stAB [grpC]).resourceMarkers = [grpA, grpC] ∧
    (∃ item ∈ (MarkersTable.reset extEq stAB stAB.resourceMarkers).tableItems,
      item.marker = mInfo) ∧
    ¬∃ item ∈ (MarkersTable.update extEq stAB [grpC]).tableItems,
      item.marker = mInfo :=
  ⟨by decide, by decide, by decide, by decide⟩

/-- Claim C5 (amended): when the stored group identities are unique and every
replacement group is found by identity among them (replacement identities
unique as well), `update` replaces exactly the identity-matched groups in
place and then behaves as `reset` on the full set, and the stored occurrence
count of every group not among the replacements is unchanged — untouched
groups are neither duplicated nor dropped. -/
theorem spec_c5_amended_update (ext : ExtServices) (st : MarkersTable)
    (reps : List ResourceMarkers)
    (hnodup : (st.resourceMarkers.map ResourceMarkers.gid).Nodup)
    (hrnodup : (reps.map ResourceMarkers.gid).Nodup)
    (hfound : ∀ r ∈ reps, r.gid ∈ st.resourceMarkers.map ResourceMarkers.gid) :
    MarkersTable.update ext st reps =
      MarkersTable.reset ext st
        (st.resourceMarkers.map
          (fun g => (reps.find? (fun r => r.gid == g.gid)).getD g)) ∧
    ∀ g ∈ st.resourceMarkers, (∀ r ∈ reps, r.gid ≠ g.gid) →
      (MarkersTable.update ext st reps).resourceMarkers.count g =
        st.resourceMarkers.count g := by
  obtain ⟨rm0, fo0, ic0, ti0, tf0⟩ := st
  have hfold := update_fold_eq reps rm0 hnodup hrnodup hfound
  refine ⟨?_, ?_⟩
  · simp only [MarkersTable.update, MarkersTable.reset]
    rw [hfold]
  · intro g hg hgr
    simp only [MarkersTable.update, MarkersTable.reset]
    rw [hfold]
    apply count_map_of_fiber
    intro y
    constructor
    · intro hfy
      cases hfind : reps.find? (fun r => r.gid == y.gid) with
      | none => rw [hfind] at hfy; simpa using hfy
      | some rr =>
        rw [hfind] at hfy
        simp only [Option.getD_some] at hfy
        have hrm := List.mem_of_find?_eq_some hfind
        exact absurd (congrArg ResourceMarkers.gid hfy) (hgr rr hrm)
    · intro hy
      subst hy
      have hnone : reps.find? (fun r => r.gid == y.gid) = none := by
        rw [List.find?_eq_none]
        intro x hx hc
        exact hgr x hx (by simpa using hc)
      simp [hnone]

/-- Claim C5 (amended) witness: replacing `grpA` by a group with its identity
in the two-group store satisfies the hypotheses, so `update` is `reset` on the
replaced set and `grpB` keeps its single stored occurrence. -/
theorem spec_c5_witness :
    (MarkersTable.update extEq stAB [grpA2] =
      MarkersTable.reset extEq stAB
        (stAB.resourceMarkers.map
          (fun g => (([grpA2] : List ResourceMarkers).find?
            (fun r => r.gid == g.gid)).getD g))) ∧
    ∀ g ∈ stAB.resourceMarkers, (∀ r ∈ ([grpA2] : List ResourceMarkers), r.gid ≠ g.gid) →
      (MarkersTable.update extEq stAB [grpA2]).resourceMarkers.count g =
        stAB.resourceMarkers.count g :=
  spec_c5_amended_update extEq stAB [grpA2] (by decide) (by decide) (by decide)
